import Mathlib

/-!
Verification development for the TicTacToe engine and command router
(`src/ip1-handout/src/town/games/TicTacToeGame.ts`).

The file shallowly embeds the TypeScript code: the engine class
`TicTacToeGame` (its `applyMove`, `_checkForWin`, `_join`, `_leave`) and the
router class `TicTacToeGameArea` (its `handleCommand`).  Mutation is turned
into explicit state passing; thrown errors become `Except` values.  Parts of
the repository that are not in `src/` (the base classes `Game` and
`GameArea`, the message constants of `InvalidParametersError`) are modelled
from the specification, and each such definition says so in its doc comment.
-/

namespace TTT

inductive GamePiece
  | X
  | O
deriving DecidableEq, Fintype

inductive GameStatus
  | WAITING_TO_START
  | IN_PROGRESS
  | OVER
deriving DecidableEq

abbrev PlayerID := String

/-- A recorded move `{gamePiece, row, col}`; `row, col ∈ {0,1,2}` per the
`TicTacToeGridPosition` type. -/
structure TicTacToeMove where
  gamePiece : GamePiece
  row : Fin 3
  col : Fin 3
deriving DecidableEq

/-- The `TicTacToeGameState` record: `moves`, `status`, optional `x`, `o`
slot holders and optional `winner`. -/
structure TicTacToeGameState where
  moves : List TicTacToeMove
  status : GameStatus
  x : Option PlayerID := none
  o : Option PlayerID := none
  winner : Option PlayerID := none
deriving DecidableEq

/-- JavaScript truthiness of an optional string field (`this.state.x` has
type `string | undefined`): `undefined` and the empty string are falsy,
every other string is truthy. -/
def falsyStr : Option String → Bool
  | none => true
  | some s => s.isEmpty

/-- A JavaScript value as it appears in the `throw`/`catch` logic of
`handleCommand`: either an `Error` object carrying a message, or a plain
string (the imported message constants). -/
inductive JSValue
  | errObj (msg : String)
  | str (s : String)
deriving DecidableEq

/-- JavaScript strict equality `===` restricted to the comparisons the code
performs.  A value of type `object` (an `Error`) is never `===` a `string`;
two strings compare by content.  Two `Error` objects compare by reference,
and every thrown `Error` in this code is freshly allocated, so distinct
`errObj` values are never the same reference; the code only ever compares a
caught `Error` against string constants, where the type mismatch alone
decides the result. -/
def jsStrictEq : JSValue → JSValue → Bool
  | .str a, .str b => a == b
  | _, _ => false

/-- JavaScript string conversion as used by `new Error(error)`: a string is
taken as-is; an `Error` object stringifies with an `Error:` tag.  (In
`handleCommand` this call is unreachable, see `jsStrictEq`.) -/
def JSValue.asString : JSValue → String
  | .errObj m => "Error: " ++ m
  | .str s => s

/-- JavaScript `s.indexOf(sub) !== -1`: whether `sub` occurs as a substring
of `s`. -/
def jsStrIndexOfFound (s sub : String) : Bool :=
  decide (sub.toList <:+: s.toList)

/-- Modelled from the spec: the fixed message constant for GameFull in
`InvalidParametersError` (file not in `src/`). -/
def GAME_FULL_MESSAGE : String := "Game is full"

/-- Modelled from the spec: the fixed message constant for
PlayerAlreadyInGame in `InvalidParametersError` (file not in `src/`). -/
def PLAYER_ALREADY_IN_GAME_MESSAGE : String := "Player is already in this game"

/-- Modelled from the spec: the fixed message constant for PlayerNotInGame
in `InvalidParametersError` (file not in `src/`). -/
def PLAYER_NOT_IN_GAME_MESSAGE : String := "Player is not in this game"

/-- Modelled from the spec: the fixed message constant for GameNotInProgress
in `InvalidParametersError` (file not in `src/`). -/
def GAME_NOT_IN_PROGRESS_MESSAGE : String := "Game is not in progress"

/-- Modelled from the spec: the fixed message constant for MoveNotYourTurn
in `InvalidParametersError` (file not in `src/`). -/
def MOVE_NOT_YOUR_TURN_MESSAGE : String := "Not your turn"

/-- Modelled from the spec: the fixed message constant for
BoardPositionNotEmpty in `InvalidParametersError` (file not in `src/`). -/
def BOARD_POSITION_NOT_EMPTY_MESSAGE : String := "Board position is not empty"

/-- Modelled from the spec: the fixed message constant for InvalidCommand in
`InvalidParametersError` (file not in `src/`). -/
def INVALID_COMMAND_MESSAGE : String := "Invalid command"

/-- One `TicTacToeGame` instance: its `id` and `state`, plus the `_players`
roster owned by the base class.  Picking up players as bare identifiers is
faithful because every access in `src/` goes through `.id`. -/
structure GameInstance where
  id : String
  state : TicTacToeGameState
  players : List PlayerID
deriving DecidableEq

/-- The `TicTacToeGame` constructor: `super({moves: [], status:
'WAITING_TO_START'})`.  The base class `Game` (not in `src/`) is modelled
from the spec as storing the initial state, a fresh game identifier and an
empty roster. -/
def TicTacToeGame.new (gid : String) : GameInstance :=
  { id := gid
    state := { moves := [], status := .WAITING_TO_START }
    players := [] }

/-- `TicTacToeGame._checkForWin(gamePiece, row, col)`: counts recorded moves
of `gamePiece` in the row of the move, its column, the main diagonal when
`row === col`, and the anti-diagonal when `row + col === 2`; each check
succeeds when the count equals 3. -/
def TicTacToeGame._checkForWin (st : TicTacToeGameState) (gamePiece : GamePiece)
    (row col : Fin 3) : Bool :=
  let checkRow :=
    (st.moves.filter (fun m => m.row == row && m.gamePiece == gamePiece)).length == 3
  let checkCol :=
    (st.moves.filter (fun m => m.col == col && m.gamePiece == gamePiece)).length == 3
  let checkDiagonal1 :=
    row == col &&
      (st.moves.filter (fun m => m.row == m.col && m.gamePiece == gamePiece)).length == 3
  let checkDiagonal2 :=
    (row.val + col.val == 2) &&
      (st.moves.filter
        (fun m => m.row.val + m.col.val == 2 && m.gamePiece == gamePiece)).length == 3
  checkRow || checkCol || checkDiagonal1 || checkDiagonal2

/-- `TicTacToeGame.applyMove(move)`: finds the mover on the roster, checks
the game is running (`!x || !o || status !== 'IN_PROGRESS'`), checks the
mover holds a slot (mislabelled MoveNotYourTurn in the source), checks the
cell is free, appends the move, then evaluates win/tie. -/
def TicTacToeGame.applyMove (g : GameInstance) (playerID : PlayerID)
    (row col : Fin 3) : Except JSValue GameInstance :=
  match g.players.find? (fun p => p == playerID) with
  | none => .error (.errObj "PLAYER_NOT_IN_GAME_MESSAGE")
  | some currentPlayer =>
    if falsyStr g.state.x || falsyStr g.state.o
        || g.state.status != GameStatus.IN_PROGRESS then
      .error (.errObj "GAME_NOT_IN_PROGRESS_MESSAGE")
    else if g.state.x != some currentPlayer && g.state.o != some currentPlayer then
      .error (.errObj "MOVE_NOT_YOUR_TURN_MESSAGE")
    else if g.state.moves.any (fun m => m.row == row && m.col == col) then
      .error (.errObj "BOARD_POSITION_NOT_EMPTY_MESSAGE")
    else
      let gamePiece := if g.state.x == some currentPlayer then GamePiece.X else GamePiece.O
      let st1 := { g.state with
                   moves := g.state.moves ++ [⟨gamePiece, row, col⟩] }
      let st2 :=
        if TicTacToeGame._checkForWin st1 gamePiece row col then
          { st1 with status := .OVER, winner := some currentPlayer }
        else if st1.moves.length == 9 then
          { st1 with status := .OVER, winner := none }
        else st1
      .ok { g with state := st2 }

/-- `TicTacToeGame._join(player)`: GameFull when the roster already has 2
members, PlayerAlreadyInGame on a duplicate identifier; otherwise assigns
the first falsy slot (`!this.state.x`, then `!this.state.o`) and sets the
status to IN_PROGRESS when both slots are truthy.  It does not itself add
the player to the roster. -/
def TicTacToeGame._join (g : GameInstance) (pid : PlayerID) :
    Except JSValue GameInstance :=
  if g.players.length ≥ 2 then
    .error (.errObj "GAME_FULL_MESSAGE")
  else if g.players.any (fun p => p == pid) then
    .error (.errObj "PLAYER_ALREADY_IN_GAME_MESSAGE")
  else
    let st0 := g.state
    let st1 :=
      if falsyStr st0.x then { st0 with x := some pid }
      else if falsyStr st0.o then { st0 with o := some pid }
      else st0
    let st2 :=
      if !(falsyStr st1.x) && !(falsyStr st1.o) then { st1 with status := .IN_PROGRESS }
      else st1
    .ok { g with state := st2 }

/-- Modelled from the spec: the public `join` of the base class `Game` (not
in `src/`) validates through `_join` and then adds the player to the
roster. -/
def TicTacToeGame.join (g : GameInstance) (pid : PlayerID) :
    Except JSValue GameInstance :=
  (TicTacToeGame._join g pid).map (fun g2 => { g2 with players := g2.players ++ [pid] })

/-- `TicTacToeGame._leave(player)`: PlayerNotInGame when the identifier is
not on the roster; otherwise splices the player out.  If exactly one player
remains the status becomes OVER with that player as winner; otherwise the
status becomes WAITING_TO_START (the `winner` field is not touched). -/
def TicTacToeGame._leave (g : GameInstance) (pid : PlayerID) :
    Except JSValue GameInstance :=
  match g.players.findIdx? (fun p => p == pid) with
  | none => .error (.errObj "PLAYER_NOT_IN_GAME_MESSAGE")
  | some playerIndex =>
    let players1 := g.players.eraseIdx playerIndex
    if players1.length == 1 then
      .ok { g with players := players1
                   state := { g.state with status := .OVER, winner := players1.head? } }
    else
      .ok { g with players := players1
                   state := { g.state with status := .WAITING_TO_START } }

/-- Modelled from the spec: the public `leave` of the base class `Game` (not
in `src/`) delegates to `_leave`, which already removes the player from the
roster, so no extra glue is needed. -/
def TicTacToeGame.leave (g : GameInstance) (pid : PlayerID) :
    Except JSValue GameInstance :=
  TicTacToeGame._leave g pid

/-- The command envelope handled by `handleCommand`, keyed by
`command.type`; a `GameMove` carries the move payload, `Other` stands for
any unrecognized command type. -/
inductive InteractableCommand
  | JoinGame
  | LeaveGame
  | GameMove (row col : Fin 3)
  | Other (ctype : String)
deriving DecidableEq

/-- Modelled from the spec: a completed-game history record capturing the
two participants and the outcome.  The router code in `src/` never
constructs one. -/
structure HistoryEntry where
  playerX : Option PlayerID
  playerO : Option PlayerID
  winner : Option PlayerID
deriving DecidableEq

/-- One `TicTacToeGameArea`: the optional active engine `_game`, the
`_history` list of the base class `GameArea` (not in `src/`, modelled from
the spec), and a counter of `_emitAreaChanged` notifications (modelled from
the spec: the notification sink is invoked with no payload). -/
structure TicTacToeGameArea where
  game : Option GameInstance
  history : List HistoryEntry
  notifications : Nat
deriving DecidableEq

/-- `TicTacToeGameArea.handleCommand(command, player)`: dispatches on the
command type inside a `try` block, calls `_emitAreaChanged` on success, and
in the `catch` block compares the caught `Error` object against four string
constants with `===` before deciding to rethrow it or replace it with the
generic `An unexpected error occurred.` error. -/
def TicTacToeGameArea.handleCommand (a : TicTacToeGameArea)
    (command : InteractableCommand) (pid : PlayerID) :
    Except JSValue TicTacToeGameArea :=
  let attempt : Except JSValue TicTacToeGameArea :=
    match command with
    | .JoinGame =>
      match a.game with
      | none => .ok a
      | some g => (TicTacToeGame.join g pid).map (fun g2 => { a with game := some g2 })
    | .LeaveGame =>
      match a.game with
      | none => .error (.errObj PLAYER_NOT_IN_GAME_MESSAGE)
      | some g =>
        if !(jsStrIndexOfFound g.id pid) then
          .error (.errObj PLAYER_NOT_IN_GAME_MESSAGE)
        else
          (TicTacToeGame.leave g pid).map (fun g2 => { a with game := some g2 })
    | .GameMove row col =>
      match a.game with
      | none => .error (.errObj GAME_NOT_IN_PROGRESS_MESSAGE)
      | some g =>
        if g.state.status != GameStatus.IN_PROGRESS then
          .error (.errObj GAME_NOT_IN_PROGRESS_MESSAGE)
        else
          (TicTacToeGame.applyMove g pid row col).map
            (fun g2 => { a with game := some g2 })
    | .Other _ => .error (.errObj INVALID_COMMAND_MESSAGE)
  match attempt with
  | .ok a2 => .ok { a2 with notifications := a2.notifications + 1 }
  | .error e =>
    if jsStrictEq e (.str PLAYER_ALREADY_IN_GAME_MESSAGE)
        || jsStrictEq e (.str GAME_FULL_MESSAGE)
        || jsStrictEq e (.str GAME_NOT_IN_PROGRESS_MESSAGE)
        || jsStrictEq e (.str INVALID_COMMAND_MESSAGE) then
      .error (.errObj e.asString)
    else
      .error (.errObj "An unexpected error occurred.")

deriving instance DecidableEq for Except

/-! ### Specification-level win predicates

These express, independently of `_checkForWin`, what it means for a piece to
hold a complete winning line on the board described by a move list. -/

/-- The board position of a recorded move. -/
def movePos (m : TicTacToeMove) : Fin 3 × Fin 3 := (m.row, m.col)

/-- All recorded moves target pairwise distinct positions.  `applyMove`
maintains this through its BoardPositionNotEmpty check. -/
def NodupPos (moves : List TicTacToeMove) : Prop :=
  (moves.map movePos).Nodup

instance (moves : List TicTacToeMove) : Decidable (NodupPos moves) :=
  inferInstanceAs (Decidable ((moves.map movePos).Nodup))

/-- Piece `p` occupies cell `(r, c)`: some recorded move put it there. -/
def cellHas (moves : List TicTacToeMove) (p : GamePiece) (r c : Fin 3) : Prop :=
  ∃ m ∈ moves, m.gamePiece = p ∧ m.row = r ∧ m.col = c

instance (moves : List TicTacToeMove) (p : GamePiece) (r c : Fin 3) :
    Decidable (cellHas moves p r c) :=
  List.decidableBEx _ moves

/-- The anti-diagonal partner of row `i`: the column with `i + col = 2`. -/
def anti (i : Fin 3) : Fin 3 := ⟨2 - i.val, by omega⟩

/-- One of the 8 winning lines: 3 rows, 3 columns, 2 diagonals. -/
inductive WinLine
  | row (r : Fin 3)
  | col (c : Fin 3)
  | diagMain
  | diagAnti
deriving DecidableEq, Fintype

/-- The three cells of a winning line, indexed by `Fin 3`. -/
def WinLine.cell : WinLine → Fin 3 → Fin 3 × Fin 3
  | .row r, i => (r, i)
  | .col c, i => (i, c)
  | .diagMain, i => (i, i)
  | .diagAnti, i => (i, anti i)

/-- Piece `p` holds every cell of line `L`. -/
def winsOn (moves : List TicTacToeMove) (p : GamePiece) (L : WinLine) : Prop :=
  ∀ i : Fin 3, cellHas moves p (L.cell i).1 (L.cell i).2

instance (moves : List TicTacToeMove) (p : GamePiece) (L : WinLine) :
    Decidable (winsOn moves p L) :=
  inferInstanceAs (Decidable (∀ i : Fin 3, cellHas moves p (L.cell i).1 (L.cell i).2))

/-- Piece `p` holds some complete winning line. -/
def winsLine (moves : List TicTacToeMove) (p : GamePiece) : Prop :=
  ∃ L : WinLine, winsOn moves p L

instance (moves : List TicTacToeMove) (p : GamePiece) :
    Decidable (winsLine moves p) :=
  inferInstanceAs (Decidable (∃ L : WinLine, winsOn moves p L))

/-! ### Counting lemmas relating `_checkForWin` to the win predicates -/

lemma cell_injective (L : WinLine) : Function.Injective L.cell := by
  cases L with
  | row r => intro a b h; exact congrArg Prod.snd h
  | col c => intro a b h; exact congrArg Prod.fst h
  | diagMain => intro a b h; exact congrArg Prod.fst h
  | diagAnti => intro a b h; exact congrArg Prod.fst h

/-- Core counting argument: if `q` selects exactly the moves of piece `p`
lying on line `L`, and all recorded positions are distinct, then the filter
has length 3 precisely when `p` holds every cell of `L`. -/
lemma filter_line_count (moves : List TicTacToeMove) (p : GamePiece) (L : WinLine)
    (q : TicTacToeMove → Bool)
    (hq : ∀ m, q m = true ↔ ((∃ i, movePos m = L.cell i) ∧ m.gamePiece = p))
    (hnd : NodupPos moves) :
    ((moves.filter q).length = 3 ↔ winsOn moves p L) := by
  classical
  set l := moves.filter q with hl
  have hsub : (l.map movePos).Sublist (moves.map movePos) :=
    (List.filter_sublist moves).map movePos
  have hndl : (l.map movePos).Nodup := List.Nodup.sublist hsub hnd
  have hcard : (l.map movePos).toFinset.card = l.length := by
    rw [List.toFinset_card_of_nodup hndl, List.length_map]
  have himg : ∀ pt ∈ l.map movePos, pt ∈ Finset.image L.cell Finset.univ := by
    intro pt hpt
    rcases List.mem_map.mp hpt with ⟨m, hm, rfl⟩
    rcases ((hq m).mp (List.of_mem_filter hm)).1 with ⟨i, hi⟩
    exact Finset.mem_image.mpr ⟨i, Finset.mem_univ i, hi.symm⟩
  have himgcard : (Finset.image L.cell Finset.univ).card = 3 := by
    rw [Finset.card_image_of_injective _ (cell_injective L), Finset.card_univ,
      Fintype.card_fin]
  have hsubset : (l.map movePos).toFinset ⊆ Finset.image L.cell Finset.univ :=
    fun pt hpt => himg pt (List.mem_toFinset.mp hpt)
  constructor
  · intro h3
    have heq : (l.map movePos).toFinset = Finset.image L.cell Finset.univ := by
      apply Finset.eq_of_subset_of_card_le hsubset
      rw [himgcard, hcard, h3]
    intro i
    have hmem : L.cell i ∈ (l.map movePos).toFinset := by
      rw [heq]; exact Finset.mem_image.mpr ⟨i, Finset.mem_univ i, rfl⟩
    rcases List.mem_map.mp (List.mem_toFinset.mp hmem) with ⟨m, hm, hpos⟩
    exact ⟨m, List.mem_of_mem_filter hm, ((hq m).mp (List.of_mem_filter hm)).2,
      congrArg Prod.fst hpos, congrArg Prod.snd hpos⟩
  · intro hw
    have hsup : Finset.image L.cell Finset.univ ⊆ (l.map movePos).toFinset := by
      intro pt hpt
      rcases Finset.mem_image.mp hpt with ⟨i, _, rfl⟩
      rcases hw i with ⟨m, hm, hp, hr, hc⟩
      have hq2 : q m = true := (hq m).mpr ⟨⟨i, by simp [movePos, hr, hc]⟩, hp⟩
      exact List.mem_toFinset.mpr
        (List.mem_map.mpr ⟨m, List.mem_filter.mpr ⟨hm, hq2⟩, by simp [movePos, hr, hc]⟩)
    have heq : (l.map movePos).toFinset = Finset.image L.cell Finset.univ :=
      Finset.Subset.antisymm hsubset hsup
    have := congrArg Finset.card heq
    rw [hcard, himgcard] at this
    exact this

lemma hq_row (p : GamePiece) (r : Fin 3) : ∀ m : TicTacToeMove,
    ((m.row == r && m.gamePiece == p) = true) ↔
      ((∃ i, movePos m = WinLine.cell (.row r) i) ∧ m.gamePiece = p) := by
  intro m
  simp [WinLine.cell, movePos, Prod.ext_iff]

lemma hq_col (p : GamePiece) (c : Fin 3) : ∀ m : TicTacToeMove,
    ((m.col == c && m.gamePiece == p) = true) ↔
      ((∃ i, movePos m = WinLine.cell (.col c) i) ∧ m.gamePiece = p) := by
  intro m
  simp [WinLine.cell, movePos, Prod.ext_iff]

lemma hq_diagMain (p : GamePiece) : ∀ m : TicTacToeMove,
    ((m.row == m.col && m.gamePiece == p) = true) ↔
      ((∃ i, movePos m = WinLine.cell .diagMain i) ∧ m.gamePiece = p) := by
  intro m
  simp [WinLine.cell, movePos, Prod.ext_iff]
  exact fun _ => eq_comm

lemma hq_diagAnti (p : GamePiece) : ∀ m : TicTacToeMove,
    ((m.row.val + m.col.val == 2 && m.gamePiece == p) = true) ↔
      ((∃ i, movePos m = WinLine.cell .diagAnti i) ∧ m.gamePiece = p) := by
  intro m
  have hr := m.row.isLt
  have hc := m.col.isLt
  rw [Bool.and_eq_true, beq_iff_eq, beq_iff_eq]
  constructor
  · rintro ⟨hs, hp⟩
    refine ⟨⟨m.row, ?_⟩, hp⟩
    show (m.row, m.col) = (m.row, anti m.row)
    have hcol : m.col = anti m.row :=
      Fin.ext (by show m.col.val = 2 - m.row.val; omega)
    rw [hcol]
  · rintro ⟨⟨i, hi⟩, hp⟩
    have h1 : m.row = i := congrArg Prod.fst hi
    have h2 : m.col = anti i := congrArg Prod.snd hi
    have hi3 := i.isLt
    have hv1 : m.row.val = i.val := by rw [h1]
    have hv2 : m.col.val = 2 - i.val := by rw [h2]; rfl
    exact ⟨by omega, hp⟩

lemma row_count_iff (moves : List TicTacToeMove) (p : GamePiece) (r : Fin 3)
    (hnd : NodupPos moves) :
    ((moves.filter (fun m => m.row == r && m.gamePiece == p)).length = 3 ↔
      winsOn moves p (.row r)) :=
  filter_line_count moves p (.row r) _ (hq_row p r) hnd

lemma col_count_iff (moves : List TicTacToeMove) (p : GamePiece) (c : Fin 3)
    (hnd : NodupPos moves) :
    ((moves.filter (fun m => m.col == c && m.gamePiece == p)).length = 3 ↔
      winsOn moves p (.col c)) :=
  filter_line_count moves p (.col c) _ (hq_col p c) hnd

lemma diagMain_count_iff (moves : List TicTacToeMove) (p : GamePiece)
    (hnd : NodupPos moves) :
    ((moves.filter (fun m => m.row == m.col && m.gamePiece == p)).length = 3 ↔
      winsOn moves p .diagMain) :=
  filter_line_count moves p .diagMain _ (hq_diagMain p) hnd

lemma diagAnti_count_iff (moves : List TicTacToeMove) (p : GamePiece)
    (hnd : NodupPos moves) :
    ((moves.filter (fun m => m.row.val + m.col.val == 2 && m.gamePiece == p)).length = 3 ↔
      winsOn moves p .diagAnti) :=
  filter_line_count moves p .diagAnti _ (hq_diagAnti p) hnd

/-- Soundness of `_checkForWin`: on a board with distinct positions, a
reported win means the piece really holds a complete line. -/
lemma checkForWin_sound (st : TicTacToeGameState) (p : GamePiece) (r c : Fin 3)
    (hnd : NodupPos st.moves)
    (h : TicTacToeGame._checkForWin st p r c = true) :
    winsLine st.moves p := by
  unfold TicTacToeGame._checkForWin at h
  simp only [Bool.or_eq_true, Bool.and_eq_true, beq_iff_eq] at h
  rcases h with ((h | h) | h) | h
  · exact ⟨.row r, (row_count_iff st.moves p r hnd).mp h⟩
  · exact ⟨.col c, (col_count_iff st.moves p c hnd).mp h⟩
  · exact ⟨.diagMain, (diagMain_count_iff st.moves p hnd).mp h.2⟩
  · exact ⟨.diagAnti, (diagAnti_count_iff st.moves p hnd).mp h.2⟩

/-- Completeness of `_checkForWin` at the just-played cell: if the piece
holds a complete line passing through `(r, c)`, the check reports a win. -/
lemma winsOn_checkForWin (st : TicTacToeGameState) (p : GamePiece) (r c : Fin 3)
    (hnd : NodupPos st.moves) (L : WinLine) (hw : winsOn st.moves p L)
    (i : Fin 3) (hcell : L.cell i = (r, c)) :
    TicTacToeGame._checkForWin st p r c = true := by
  unfold TicTacToeGame._checkForWin
  simp only [Bool.or_eq_true, Bool.and_eq_true, beq_iff_eq]
  cases L with
  | row r0 =>
    have hr : r0 = r := congrArg Prod.fst hcell
    subst hr
    exact Or.inl (Or.inl (Or.inl ((row_count_iff st.moves p r0 hnd).mpr hw)))
  | col c0 =>
    have hc : c0 = c := congrArg Prod.snd hcell
    subst hc
    exact Or.inl (Or.inl (Or.inr ((col_count_iff st.moves p c0 hnd).mpr hw)))
  | diagMain =>
    have h1 : i = r := congrArg Prod.fst hcell
    have h2 : i = c := congrArg Prod.snd hcell
    exact Or.inl (Or.inr ⟨by rw [← h1, ← h2],
      (diagMain_count_iff st.moves p hnd).mpr hw⟩)
  | diagAnti =>
    have h1 : i = r := congrArg Prod.fst hcell
    have h2 : anti i = c := congrArg Prod.snd hcell
    refine Or.inr ⟨?_, (diagAnti_count_iff st.moves p hnd).mpr hw⟩
    have hlt := i.isLt
    have hv : (anti i).val = 2 - i.val := rfl
    rw [← h1, ← h2, hv]
    omega

/-- A line completed by appending one move, that was not complete before,
passes through the cell of that move, and the move carries the piece. -/
lemma winsOn_append_new (moves : List TicTacToeMove) (m : TicTacToeMove)
    (p : GamePiece) (L : WinLine) (hw : winsOn (moves ++ [m]) p L)
    (hold : ¬ winsOn moves p L) :
    m.gamePiece = p ∧ ∃ i, L.cell i = movePos m := by
  rcases not_forall.mp hold with ⟨i, hi⟩
  rcases hw i with ⟨m2, hm2, hp2, hr2, hc2⟩
  rcases List.mem_append.mp hm2 with h | h
  · exact absurd ⟨m2, h, hp2, hr2, hc2⟩ hi
  · have hm : m2 = m := by simpa using h
    subst hm
    refine ⟨hp2, i, ?_⟩
    show L.cell i = (m2.row, m2.col)
    rw [hr2, hc2]

/-- A line untouched by an appended move that is complete afterwards was
already complete before. -/
lemma winsOn_append_old (moves : List TicTacToeMove) (m : TicTacToeMove)
    (p : GamePiece) (L : WinLine) (hw : winsOn moves p L) :
    winsOn (moves ++ [m]) p L := by
  intro i
  rcases hw i with ⟨m2, hm2, hp2, hr2, hc2⟩
  exact ⟨m2, List.mem_append.mpr (Or.inl hm2), hp2, hr2, hc2⟩

/-- The state computed by the success path of `applyMove` as a function of
the pre-state: the new move appended, then the win/tie evaluation exactly as
in the source. -/
def applyMovePost (st : TicTacToeGameState) (piece : GamePiece) (pid : PlayerID)
    (row col : Fin 3) : TicTacToeGameState :=
  let st1 := { st with moves := st.moves ++ [⟨piece, row, col⟩] }
  if TicTacToeGame._checkForWin st1 piece row col then
    { st1 with status := .OVER, winner := some pid }
  else if st1.moves.length == 9 then
    { st1 with status := .OVER, winner := none }
  else st1

/-- Anatomy of a successful `applyMove`: the mover is on the roster, the
game was running, the target cell was free, id and roster are unchanged, and
the new state is `applyMovePost` of the old one for the piece the source
computes from the `x` slot. -/
lemma applyMove_ok_elim (g : GameInstance) (pid : PlayerID) (row col : Fin 3)
    (g2 : GameInstance)
    (hok : TicTacToeGame.applyMove g pid row col = .ok g2) :
    pid ∈ g.players ∧ g.state.status = .IN_PROGRESS ∧
      (g.state.moves.any (fun m => m.row == row && m.col == col)) = false ∧
      g2.id = g.id ∧ g2.players = g.players ∧
      g2.state = applyMovePost g.state
        (if g.state.x == some pid then GamePiece.X else GamePiece.O) pid row col := by
  unfold TicTacToeGame.applyMove at hok
  cases hfind : g.players.find? (fun p => p == pid) with
  | none => rw [hfind] at hok; exact absurd hok (by simp)
  | some cp =>
    have hcp : cp = pid := by simpa using List.find?_some hfind
    subst hcp
    have hmem : cp ∈ g.players := List.mem_of_find?_eq_some hfind
    simp only [hfind] at hok
    split at hok
    case isTrue h => simp at hok
    case isFalse h1 =>
      split at hok
      case isTrue h => simp at hok
      case isFalse h2 =>
        split at hok
        case isTrue h => simp at hok
        case isFalse h3 =>
          simp only [Except.ok.injEq] at hok
          subst hok
          refine ⟨hmem, ?_, ?_, rfl, rfl, ?_⟩
          · simp only [Bool.or_eq_true, bne_iff_ne, ne_eq, not_or, not_not,
              Bool.not_eq_true] at h1
            exact h1.2
          · rw [Bool.not_eq_true] at h3
            exact h3
          · rfl

/-- Appending a move to a free cell keeps positions pairwise distinct. -/
lemma nodupPos_append (moves : List TicTacToeMove) (m : TicTacToeMove)
    (hnd : NodupPos moves)
    (hfree : (moves.any (fun m2 => m2.row == m.row && m2.col == m.col)) = false) :
    NodupPos (moves ++ [m]) := by
  unfold NodupPos at *
  rw [List.map_append, List.map_singleton, List.nodup_append]
  refine ⟨hnd, List.nodup_singleton _, ?_⟩
  intro a ha hb
  rcases List.mem_map.mp ha with ⟨m2, hm2, rfl⟩
  have hpos : movePos m2 = movePos m := by simpa using hb
  have hrow : m2.row = m.row := congrArg Prod.fst hpos
  have hcol : m2.col = m.col := congrArg Prod.snd hpos
  have hany : moves.any (fun m2 => m2.row == m.row && m2.col == m.col) = true :=
    List.any_eq_true.mpr ⟨m2, hm2, by simp [hrow, hcol]⟩
  rw [hfree] at hany
  exact Bool.false_ne_true hany

/-- If appending the new move completes a line for its piece that was not
complete before, `_checkForWin` reports the win. -/
lemma new_win_checked (stPre : TicTacToeGameState) (piece : GamePiece) (row col : Fin 3)
    (hnd2 : NodupPos (stPre.moves ++ [⟨piece, row, col⟩]))
    (hnw : ¬ winsLine stPre.moves piece)
    (hwl : winsLine (stPre.moves ++ [⟨piece, row, col⟩]) piece) :
    TicTacToeGame._checkForWin
      { stPre with moves := stPre.moves ++ [⟨piece, row, col⟩] } piece row col = true := by
  rcases hwl with ⟨L, hw⟩
  have hold : ¬ winsOn stPre.moves piece L := fun h => hnw ⟨L, h⟩
  obtain ⟨hp, i, hcell⟩ := winsOn_append_new stPre.moves _ piece L hw hold
  exact winsOn_checkForWin _ piece row col hnd2 L hw i (by rw [hcell]; rfl)

/-- C5 amended: for every successful `applyMove` from a state with pairwise
distinct move positions (true of every reachable state, as cells are never
vacated and `applyMove` rejects occupied cells), the move is appended; if
no line was already complete before the move, a line now held by the mover
makes the status OVER with the mover as winner; with no line of the mover a
full board (9 moves) makes the status OVER with no winner; and a win is
only ever declared when the mover really holds one of the 8 winning
lines. -/
theorem C5_amended_win_tie_evaluation
    (g g2 : GameInstance) (pid : PlayerID) (row col : Fin 3)
    (hnd : NodupPos g.state.moves)
    (hok : TicTacToeGame.applyMove g pid row col = Except.ok g2) :
    (g2.state.moves = g.state.moves ++
        [⟨if g.state.x == some pid then GamePiece.X else GamePiece.O, row, col⟩])
    ∧ ((∀ q : GamePiece, ¬ winsLine g.state.moves q) →
        winsLine g2.state.moves
          (if g.state.x == some pid then GamePiece.X else GamePiece.O) →
        g2.state.status = .OVER ∧ g2.state.winner = some pid)
    ∧ (¬ winsLine g2.state.moves
          (if g.state.x == some pid then GamePiece.X else GamePiece.O) →
        g2.state.moves.length = 9 →
        g2.state.status = .OVER ∧ g2.state.winner = none)
    ∧ (g2.state.status = .OVER ∧ g2.state.winner = some pid →
        winsLine g2.state.moves
          (if g.state.x == some pid then GamePiece.X else GamePiece.O)) := by
  obtain ⟨hmem, hstatus, hfree, hid, hpl, hstate⟩ := applyMove_ok_elim g pid row col g2 hok
  generalize hpg : (if g.state.x == some pid then GamePiece.X else GamePiece.O) = piece
    at hstate ⊢
  have hnd2 : NodupPos (g.state.moves ++ [⟨piece, row, col⟩]) :=
    nodupPos_append g.state.moves ⟨piece, row, col⟩ hnd hfree
  by_cases hcw : TicTacToeGame._checkForWin
      { g.state with moves := g.state.moves ++ [⟨piece, row, col⟩] } piece row col = true
  · have hg2 : g2.state = { g.state with
        moves := g.state.moves ++ [⟨piece, row, col⟩],
        status := .OVER, winner := some pid } := by
      rw [hstate]
      simp only [applyMovePost]
      rw [if_pos hcw]
    refine ⟨by rw [hg2], ?_, ?_, ?_⟩
    · intro _ _
      rw [hg2]
      exact ⟨rfl, rfl⟩
    · intro hnwl _
      exfalso
      apply hnwl
      have := checkForWin_sound _ piece row col hnd2 hcw
      rw [hg2]
      exact this
    · intro _
      have := checkForWin_sound _ piece row col hnd2 hcw
      rw [hg2]
      exact this
  · have hcwf : TicTacToeGame._checkForWin
        { g.state with moves := g.state.moves ++ [⟨piece, row, col⟩] } piece row col = false :=
      by simpa using hcw
    have hnowin : (∀ q : GamePiece, ¬ winsLine g.state.moves q) →
        ¬ winsLine (g.state.moves ++ [⟨piece, row, col⟩]) piece := by
      intro hnwAll hwl
      have := new_win_checked g.state piece row col hnd2 (hnwAll piece) hwl
      rw [hcwf] at this
      exact Bool.false_ne_true this
    by_cases h9 : (g.state.moves ++ [(⟨piece, row, col⟩ : TicTacToeMove)]).length = 9
    · have hg2 : g2.state = { g.state with
          moves := g.state.moves ++ [⟨piece, row, col⟩],
          status := .OVER, winner := none } := by
        rw [hstate]
        simp only [applyMovePost]
        rw [if_neg hcw, if_pos (by simpa using h9)]
      refine ⟨by rw [hg2], ?_, ?_, ?_⟩
      · intro hnwAll hwl
        rw [hg2] at hwl
        exact absurd hwl (hnowin hnwAll)
      · intro _ _
        rw [hg2]
        exact ⟨rfl, rfl⟩
      · rintro ⟨_, hwin⟩
        rw [hg2] at hwin
        simp at hwin
    · have hg2 : g2.state = { g.state with
          moves := g.state.moves ++ [⟨piece, row, col⟩] } := by
        rw [hstate]
        simp only [applyMovePost]
        rw [if_neg hcw, if_neg (fun hh => h9 (by simpa using hh))]
      refine ⟨by rw [hg2], ?_, ?_, ?_⟩
      · intro hnwAll hwl
        rw [hg2] at hwl
        exact absurd hwl (hnowin hnwAll)
      · intro _ hlen
        rw [hg2] at hlen
        exact absurd hlen h9
      · rintro ⟨hst, _⟩
        rw [hg2] at hst
        rw [hstatus] at hst
        simp at hst

/-! ### Concrete scenario states used by the claim theorems -/

/-- State after one join by `alice` on a fresh game. -/
def demoA : GameInstance :=
  { id := "game1"
    state := { moves := [], status := .WAITING_TO_START, x := some "alice" }
    players := ["alice"] }

/-- State after joins by `alice` then `bob` on a fresh game. -/
def demoAB : GameInstance :=
  { id := "game1"
    state := { moves := [], status := .IN_PROGRESS, x := some "alice", o := some "bob" }
    players := ["alice", "bob"] }

/-- `demoA` after `alice` left: an empty roster but the `x` slot (never
cleared by `_leave`) still holding `alice`. -/
def c1g2 : GameInstance := { demoA with players := [] }

/-- `c1g2` after a join by `bob`: both slots truthy, so `_join` flips the
status to IN_PROGRESS although only `bob` is on the roster. -/
def c1g3 : GameInstance :=
  { id := "game1"
    state := { moves := [], status := .IN_PROGRESS, x := some "alice", o := some "bob" }
    players := ["bob"] }

/-- `demoAB` after `alice` (piece X) played `(0,0)`. -/
def c3g1 : GameInstance :=
  { demoAB with state := { demoAB.state with moves := [⟨.X, 0, 0⟩] } }

/-- `c3g1` after `alice` played again, out of turn, at `(1,1)`. -/
def c3g2 : GameInstance :=
  { demoAB with state := { demoAB.state with moves := [⟨.X, 0, 0⟩, ⟨.X, 1, 1⟩] } }

/-- An in-progress game two plies away from a top-row win for `alice`. -/
def c5g : GameInstance :=
  { demoAB with state := { demoAB.state with moves := [⟨.X, 0, 0⟩, ⟨.O, 1, 1⟩] } }

/-- `c5g` after `alice` played `(0,1)`: no win yet, game continues. -/
def c5g2 : GameInstance :=
  { demoAB with state := { demoAB.state with moves := [⟨.X, 0, 0⟩, ⟨.O, 1, 1⟩, ⟨.X, 0, 1⟩] } }

/-- `demoAB` after `alice` left mid-game: forfeit win for `bob`. -/
def c7g1 : GameInstance :=
  { demoAB with
    players := ["bob"],
    state := { demoAB.state with status := .OVER, winner := some "bob" } }

/-- `c7g1` after `bob` also left: empty roster, status WAITING_TO_START, but
the `winner` field still holds `bob`. -/
def c7g2 : GameInstance :=
  { demoAB with
    players := [],
    state :=
      { demoAB.state with status := .WAITING_TO_START, winner := some "bob" } }

/-- The move list of `c9g`, one ply from a top-row win for `alice`. -/
def c9moves : List TicTacToeMove :=
  [⟨.X, 0, 0⟩, ⟨.O, 1, 1⟩, ⟨.X, 0, 1⟩, ⟨.O, 1, 2⟩]

/-- An in-progress game where `(0,2)` completes the top row for `alice`. -/
def c9g : GameInstance :=
  { demoAB with state := { demoAB.state with moves := c9moves } }

/-- `c9g` after the winning move `(0,2)` by `alice`. -/
def c9gWin : GameInstance :=
  { demoAB with
    state :=
      { demoAB.state with
        moves := c9moves ++ [⟨.X, 0, 2⟩], status := .OVER, winner := some "alice" } }

/-- `c9gWin` after `bob` left: one player remains, so `_leave` re-affirms
OVER with winner `alice`; the move list and slots are untouched. -/
def c5r1 : GameInstance := { c9gWin with players := ["alice"] }

/-- `c5r1` after `alice` also left: empty roster, status WAITING_TO_START,
with the completed board, both slots and the stale winner still present. -/
def c5r2 : GameInstance :=
  { c9gWin with
    players := [],
    state := { c9gWin.state with status := .WAITING_TO_START } }

/-- `c5r2` after `alice` rejoined: `_join` finds both slots truthy and flips
the finished board back to IN_PROGRESS with a 1-player roster. -/
def c5rg : GameInstance :=
  { c9gWin with
    players := ["alice"],
    state := { c9gWin.state with status := .IN_PROGRESS } }

/-- `c5rg` after `alice` played `(2,2)`: the move is accepted, no line
through `(2,2)` is complete, so the game stays IN_PROGRESS although the
top row of X moves is on the board. -/
def c5rg2 : GameInstance :=
  { c5rg with
    state := { c5rg.state with moves := c5rg.state.moves ++ [⟨.X, 2, 2⟩] } }

/-! ### Claim theorems -/

/-- C1: the claimed reachable-state invariant (IN_PROGRESS implies exactly 2
roster members) fails on the code.  After `join alice`, `leave alice`,
`join bob` from a fresh game, `_join` finds both slots still truthy (the
`x` slot is never cleared by `_leave`) and sets the status to IN_PROGRESS
while the roster holds only `bob`. -/
theorem C1_in_progress_roster_violation :
    TicTacToeGame.join (TicTacToeGame.new "game1") "alice" = Except.ok demoA ∧
    TicTacToeGame.leave demoA "alice" = Except.ok c1g2 ∧
    TicTacToeGame.join c1g2 "bob" = Except.ok c1g3 ∧
    c1g3.state.status = .IN_PROGRESS ∧
    c1g3.players.length = 1 :=
  ⟨by decide, by decide, by decide, rfl, rfl⟩

/-- C2: a JoinGame command while no active engine exists does not create an
engine and does not join the player; `this._game?.join(player)` is a no-op
under optional chaining, `handleCommand` reports success and even fires the
observer notification, with the engine reference still absent. -/
theorem C2_joinGame_no_engine_created :
    TicTacToeGameArea.handleCommand
        { game := none, history := [], notifications := 0 }
        InteractableCommand.JoinGame "alice" =
      Except.ok { game := none, history := [], notifications := 1 } := by
  decide

/-- C3: an out-of-turn move by a roster member succeeds instead of failing
with MoveNotYourTurn.  `applyMove` only checks that the mover holds a slot,
so after `alice` (X) plays `(0,0)`, a second consecutive move by `alice` at
`(1,1)` is accepted and appended. -/
theorem C3_out_of_turn_move_accepted :
    TicTacToeGame.applyMove demoAB "alice" 0 0 = Except.ok c3g1 ∧
    TicTacToeGame.applyMove c3g1 "alice" 1 1 = Except.ok c3g2 ∧
    c3g2.state.moves = [⟨.X, 0, 0⟩, ⟨.X, 1, 1⟩] :=
  ⟨by decide, by decide, rfl⟩

/-- C4 counterexample: a duplicate join by a player already on a full roster
fails with GameFull, not PlayerAlreadyInGame, because `_join` tests the
roster size before the duplicate membership. -/
theorem C4_counterexample_duplicate_join_full_roster :
    "alice" ∈ demoAB.players ∧ demoAB.players.length = 2 ∧
    TicTacToeGame.join demoAB "alice" =
      Except.error (.errObj "GAME_FULL_MESSAGE") ∧
    TicTacToeGame.join demoAB "alice" ≠
      Except.error (.errObj "PLAYER_ALREADY_IN_GAME_MESSAGE") :=
  ⟨by decide, rfl, by decide, by decide⟩

/-- C4 amended: a join on a roster that already has 2 members always fails
with GameFull (even for a duplicate member); a duplicate join fails with
PlayerAlreadyInGame only when the roster has fewer than 2 members. -/
theorem C4_amended_join_errors (g : GameInstance) (pid : PlayerID) :
    (g.players.length ≥ 2 →
      TicTacToeGame.join g pid = Except.error (.errObj "GAME_FULL_MESSAGE")) ∧
    (g.players.length < 2 → pid ∈ g.players →
      TicTacToeGame.join g pid =
        Except.error (.errObj "PLAYER_ALREADY_IN_GAME_MESSAGE")) := by
  constructor
  · intro h
    unfold TicTacToeGame.join TicTacToeGame._join
    rw [if_pos h]
    rfl
  · intro hlt hmem
    unfold TicTacToeGame.join TicTacToeGame._join
    rw [if_neg (by omega), if_pos (List.any_eq_true.mpr ⟨pid, hmem, by simp⟩)]
    rfl

/-- Witness for `C4_amended_join_errors`: both branches realized on concrete
states. -/
theorem C4_amended_witness :
    (demoAB.players.length ≥ 2 ∧
      TicTacToeGame.join demoAB "alice" =
        Except.error (.errObj "GAME_FULL_MESSAGE")) ∧
    (demoA.players.length < 2 ∧ "alice" ∈ demoA.players ∧
      TicTacToeGame.join demoA "alice" =
        Except.error (.errObj "PLAYER_ALREADY_IN_GAME_MESSAGE")) :=
  ⟨⟨by decide, (C4_amended_join_errors demoAB "alice").1 (by decide)⟩,
   ⟨by decide, by decide,
     (C4_amended_join_errors demoA "alice").2 (by decide) (by decide)⟩⟩

/-- C5 counterexample: a full reachable trace refuting the claim as stated.
From a fresh game, `alice` and `bob` join and play to an X top-row win
(status OVER); both then leave, and a rejoin by `alice` resurrects the
finished board to IN_PROGRESS (`_leave` never clears the slots, `_join`
flips the status whenever both slots are truthy).  A further successful
`applyMove` by `alice` (piece X) at `(2,2)` then leaves the status
IN_PROGRESS although the mover holds all three cells of the top row: the
stale win is never re-detected because `_checkForWin` only examines lines
through the just-played cell. -/
theorem C5_counterexample_stale_line_win_missed :
    TicTacToeGame.join (TicTacToeGame.new "game1") "alice" = Except.ok demoA ∧
    TicTacToeGame.join demoA "bob" = Except.ok demoAB ∧
    TicTacToeGame.applyMove demoAB "alice" 0 0 = Except.ok c3g1 ∧
    TicTacToeGame.applyMove c3g1 "bob" 1 1 = Except.ok c5g ∧
    TicTacToeGame.applyMove c5g "alice" 0 1 = Except.ok c5g2 ∧
    TicTacToeGame.applyMove c5g2 "bob" 1 2 = Except.ok c9g ∧
    TicTacToeGame.applyMove c9g "alice" 0 2 = Except.ok c9gWin ∧
    TicTacToeGame.leave c9gWin "bob" = Except.ok c5r1 ∧
    TicTacToeGame.leave c5r1 "alice" = Except.ok c5r2 ∧
    TicTacToeGame.join c5r2 "alice" = Except.ok c5rg ∧
    TicTacToeGame.applyMove c5rg "alice" 2 2 = Except.ok c5rg2 ∧
    c5rg.state.x = some "alice" ∧
    winsLine c5rg2.state.moves GamePiece.X ∧
    c5rg2.state.status = .IN_PROGRESS ∧
    c5rg2.state.status ≠ .OVER := by
  decide

/-- Witness for `C5_amended_win_tie_evaluation`: the winning move of the
normal game `c9g` (distinct positions, no completed line before the move);
the appended-move conclusion and the win clause are read off the theorem,
with every hypothesis discharged concretely. -/
theorem C5_amended_witness :
    NodupPos c9g.state.moves ∧
    TicTacToeGame.applyMove c9g "alice" 0 2 = Except.ok c9gWin ∧
    (∀ q : GamePiece, ¬ winsLine c9g.state.moves q) ∧
    winsLine c9gWin.state.moves
      (if c9g.state.x == some "alice" then GamePiece.X else GamePiece.O) ∧
    (c9gWin.state.status = .OVER ∧ c9gWin.state.winner = some "alice") :=
  ⟨by decide, by decide, by decide, by decide,
    (C5_amended_win_tie_evaluation c9g c9gWin "alice" 0 2
      (by decide) (by decide)).2.1 (by decide) (by decide)⟩

/-- C6: from a fresh game, two successful joins by distinct (nonempty)
identifiers put the first joiner in the X slot and the second in the O slot,
with the status still WAITING_TO_START after the first join and IN_PROGRESS
only after both slots are set. -/
theorem C6_join_order_and_status (gid : String) (p1 p2 : PlayerID)
    (h1 : p1 ≠ "") (h2 : p2 ≠ "") (hne : p1 ≠ p2) :
    TicTacToeGame.join (TicTacToeGame.new gid) p1 =
      Except.ok
        { id := gid
          state := { moves := [], status := .WAITING_TO_START, x := some p1 }
          players := [p1] } ∧
    TicTacToeGame.join
        { id := gid
          state := { moves := [], status := .WAITING_TO_START, x := some p1 }
          players := [p1] } p2 =
      Except.ok
        { id := gid
          state := { moves := [], status := .IN_PROGRESS, x := some p1, o := some p2 }
          players := [p1, p2] } := by
  have e1 : p1.isEmpty = false := by
    rw [← Bool.not_eq_true, String.isEmpty_iff]
    exact h1
  have e2 : p2.isEmpty = false := by
    rw [← Bool.not_eq_true, String.isEmpty_iff]
    exact h2
  constructor
  · unfold TicTacToeGame.join TicTacToeGame._join TicTacToeGame.new
    simp [falsyStr, Except.map]
  · unfold TicTacToeGame.join TicTacToeGame._join
    simp [falsyStr, e1, e2, hne, Except.map]

/-- Witness for `C6_join_order_and_status` at concrete players. -/
theorem C6_witness :
    ("alice" : String) ≠ "" ∧ ("bob" : String) ≠ "" ∧
    ("alice" : String) ≠ "bob" ∧
    TicTacToeGame.join (TicTacToeGame.new "game1") "alice" = Except.ok demoA ∧
    TicTacToeGame.join demoA "bob" = Except.ok demoAB :=
  ⟨by decide, by decide, by decide,
    (C6_join_order_and_status "game1" "alice" "bob"
      (by decide) (by decide) (by decide)).1,
    (C6_join_order_and_status "game1" "alice" "bob"
      (by decide) (by decide) (by decide)).2⟩

/-- C7 counterexample: after `alice` and `bob` joined, `alice` leaves (OVER,
winner `bob`), then `bob` leaves.  The status resets to WAITING_TO_START
with zero players but the `winner` field, which `_leave` never clears, still
holds `bob` — the claim demands no winner set. -/
theorem C7_counterexample_winner_not_cleared :
    TicTacToeGame.leave demoAB "alice" = Except.ok c7g1 ∧
    TicTacToeGame.leave c7g1 "bob" = Except.ok c7g2 ∧
    c7g2.players.length = 0 ∧
    c7g2.state.status = .WAITING_TO_START ∧
    c7g2.state.winner = some "bob" ∧
    c7g2.state.winner ≠ none :=
  ⟨by decide, by decide, rfl, rfl, rfl, by decide⟩

/-- C7 amended: for every successful `leave`, if exactly one player remains
the status becomes OVER with that player as winner, regardless of prior
status; if zero players remain the status becomes WAITING_TO_START and the
`winner` field is left unchanged (so it is unset whenever it was never
set, as in the single-joiner scenario). -/
theorem C7_amended_leave_semantics (g g2 : GameInstance) (pid : PlayerID)
    (hok : TicTacToeGame.leave g pid = Except.ok g2) :
    (∀ q : PlayerID, g2.players = [q] →
      g2.state.status = .OVER ∧ g2.state.winner = some q) ∧
    (g2.players = [] →
      g2.state.status = .WAITING_TO_START ∧ g2.state.winner = g.state.winner) := by
  unfold TicTacToeGame.leave TicTacToeGame._leave at hok
  cases hidx : g.players.findIdx? (fun p => p == pid) with
  | none => rw [hidx] at hok; simp at hok
  | some i =>
    simp only [hidx] at hok
    split at hok
    case isTrue hlen =>
      simp only [Except.ok.injEq] at hok
      subst hok
      constructor
      · intro q hq
        refine ⟨rfl, ?_⟩
        show (g.players.eraseIdx i).head? = some q
        have hq2 : g.players.eraseIdx i = [q] := hq
        rw [hq2]
        rfl
      · intro hq
        have hq2 : g.players.eraseIdx i = [] := hq
        rw [hq2] at hlen
        simp at hlen
    case isFalse hlen =>
      simp only [Except.ok.injEq] at hok
      subst hok
      constructor
      · intro q hq
        have hq2 : g.players.eraseIdx i = [q] := hq
        rw [hq2] at hlen
        simp at hlen
      · intro _
        exact ⟨rfl, rfl⟩

/-- Witness for `C7_amended_leave_semantics`: `alice` leaves the two-player
game, `bob` remains and is declared winner with status OVER. -/
theorem C7_amended_witness :
    TicTacToeGame.leave demoAB "alice" = Except.ok c7g1 ∧
    (c7g1.state.status = .OVER ∧ c7g1.state.winner = some "bob") :=
  ⟨by decide,
    (C7_amended_leave_semantics demoAB c7g1 "alice" (by decide)).1 "bob" rfl⟩

/-- C8: the router replaces every engine failure with the generic error.
The engine rejects the duplicate join on a full roster with a GameFull
`Error` object, but the `catch` block compares that object to string
constants with `===` (always false across types), so `handleCommand`
raises `An unexpected error occurred.` instead of the identical kind. -/
theorem C8_engine_failure_replaced_by_generic_error :
    TicTacToeGame.join demoAB "alice" =
      Except.error (.errObj "GAME_FULL_MESSAGE") ∧
    TicTacToeGameArea.handleCommand
        { game := some demoAB, history := [], notifications := 0 }
        InteractableCommand.JoinGame "alice" =
      Except.error (.errObj "An unexpected error occurred.") :=
  ⟨by decide, by decide⟩

/-- C9: a successfully dispatched GameMove that transitions the game into
OVER appends no history entry: `handleCommand` never touches `_history`,
it only fires the notification. -/
theorem C9_no_history_entry_on_game_over :
    TicTacToeGameArea.handleCommand
        { game := some c9g, history := [], notifications := 0 }
        (InteractableCommand.GameMove 0 2) "alice" =
      Except.ok { game := some c9gWin, history := [], notifications := 1 } ∧
    c9gWin.state.status = .OVER ∧
    c9gWin.state.winner = some "alice" :=
  ⟨by decide, rfl, rfl⟩

/-- C10: an unrecognized command type fails, mutates nothing and fires no
notification, but the failure is the generic `An unexpected error
occurred.` rather than InvalidCommand: the thrown InvalidCommand `Error`
object is never `===` the string constant in the `catch` block.  The call
is pure, so a repeated call on the unchanged area returns the same
failure. -/
theorem C10_unknown_command_generic_error :
    TicTacToeGameArea.handleCommand
        { game := some demoAB, history := [], notifications := 0 }
        (InteractableCommand.Other "ChatCommand") "alice" =
      Except.error (.errObj "An unexpected error occurred.") ∧
    TicTacToeGameArea.handleCommand
        { game := some demoAB, history := [], notifications := 0 }
        (InteractableCommand.Other "ChatCommand") "alice" ≠
      Except.error (.errObj INVALID_COMMAND_MESSAGE) :=
  ⟨by decide, by decide⟩

end TTT
